import Mathlib

set_option maxRecDepth 8000
set_option maxHeartbeats 1600000

/-!
A shallow embedding of the fact-validation subsystem of `frfr`
(`src/frfr/validation/fact_validator.py`), together with theorems checking
the natural-language specification against it.

Modelling conventions:
* Python strings are Lean `String`s; Python lists are Lean `List`s.
* Python `int` is `ℤ` where negative values matter (`get_line_text`),
  `ℕ` where the reachable values are non-negative (parsed line numbers).
* Python floats (match ratios, confidence values) are `ℚ`: every value
  involved is a ratio of small naturals compared against the decimal
  constants 0.4, 0.7 and 0.8, and those comparisons agree with the
  float comparisons of the source for such ratios.
* Fallible code (`int(...)`, tuple unpacking, JSON parsing) is `Option`.
* The external completion service used for fact recovery is modelled as
  an optional parsed JSON reply (`Option RecoveryReply`): `none` covers
  "no client configured", service exceptions and malformed JSON; the
  code of `attempt_fact_recovery` downstream of parsing is embedded
  faithfully.
-/

namespace Frfr

/-- Python `str.split()` whitespace class (ASCII part): space, tab,
newline, carriage return, vertical tab, form feed. -/
def pyIsSpace (c : Char) : Bool :=
  c = ' ' || c = '\t' || c = '\n' || c = '\r' || c = '\x0b' || c = '\x0c'

/-!
The embedding implements the Python string primitives it needs
(`str.split`, `str.replace`, `str.strip`, `str.lower`, slicing, decimal
rendering) by structural recursion over `List Char`: the corresponding
functions of the Lean core library are defined by well-founded recursion
over byte positions and do not reduce in the kernel, which would leave
concrete witnesses unevaluatable.
-/

/-- Accumulator loop of `wordsBy`. -/
def wordsByGo (p : Char → Bool) : List Char → List Char → List (List Char)
  | [], cur => if cur.isEmpty then [] else [cur.reverse]
  | c :: cs, cur =>
    if p c then
      (if cur.isEmpty then wordsByGo p cs [] else cur.reverse :: wordsByGo p cs [])
    else wordsByGo p cs (c :: cur)

/-- Maximal runs of non-separator characters, in order. -/
def wordsBy (p : Char → Bool) (cs : List Char) : List (List Char) :=
  wordsByGo p cs []

/-- Python `str.split()` (no argument): split on runs of whitespace,
discarding empty pieces. -/
def pySplit (s : String) : List String :=
  (wordsBy pyIsSpace s.toList).map String.mk

/-- Fuel-driven loop of `pyReplace` (each step consumes at least one
character, so fuel = input length suffices). -/
def replaceGo (p r : List Char) : ℕ → List Char → List Char
  | _, [] => []
  | 0, ys => ys
  | fuel + 1, c :: cs =>
    if p.isPrefixOf (c :: cs) then r ++ replaceGo p r fuel ((c :: cs).drop p.length)
    else c :: replaceGo p r fuel cs

/-- Python `str.replace(pat, rep)`: replace every non-overlapping
occurrence, scanning left to right. -/
def pyReplace (s pat rep : String) : String :=
  String.mk (replaceGo pat.toList rep.toList s.toList.length s.toList)

/-- Python `str.strip()` (whitespace from both ends). -/
def stripWs (s : String) : String :=
  String.mk (((s.toList.dropWhile pyIsSpace).reverse.dropWhile pyIsSpace).reverse)

/-- Python slicing `s[:n]` (by characters). -/
def strTake (s : String) (n : ℕ) : String := String.mk (s.toList.take n)

/-- Python `s[n:]` (by characters). -/
def strDrop (s : String) (n : ℕ) : String := String.mk (s.toList.drop n)

/-- The decimal digits. -/
def digitChars : List Char := ['0', '1', '2', '3', '4', '5', '6', '7', '8', '9']

/-- Fuel-driven loop of `natToStr`. -/
def natToStrGo : ℕ → ℕ → List Char → List Char
  | 0, _, acc => acc
  | fuel + 1, n, acc =>
    if n < 10 then digitChars.getD n '0' :: acc
    else natToStrGo fuel (n / 10) (digitChars.getD (n % 10) '0' :: acc)

/-- Decimal rendering of a natural number (Python `str(n)` / f-string
interpolation). -/
def natToStr (n : ℕ) : String := String.mk (natToStrGo (n + 1) n [])

/-- The first quote-normalization pattern of `normalize_text` line 79.
The source file holds mojibake: the line parses (checked with the CPython
AST) as a single `replace` whose pattern is the 15-character literal
`, \x27"\x27).replace(` and whose replacement is `"`. -/
def quoteNormPattern : String := ", \x27\"\x27).replace("

/-- `FactValidator.normalize_text` (fact_validator.py lines 69-85):
collapse whitespace runs to single spaces, apply the (mojibake) quote
replacement, apply two identity apostrophe replacements, normalize
en-dash spacing, and strip. -/
def normalizeText (text : String) : String :=
  let t := String.intercalate " " (pySplit text)
  let t := pyReplace t quoteNormPattern "\""
  let t := pyReplace (pyReplace t "\x27" "\x27") "\x27" "\x27"
  let t := pyReplace (pyReplace t " –" "–") "– " "–"
  stripWs t

/-- Python substring test `q in t`, on the character lists. -/
def isSubstrB (q t : String) : Bool :=
  (List.range (t.toList.length + 1)).any
    (fun i => q.toList.isPrefixOf (t.toList.drop i))

/-- Lower-casing used by the word comparison (`str.lower`, ASCII part). -/
def lowerStr (s : String) : String := String.mk (s.toList.map Char.toLower)

/-- The forward, single-pass, case-insensitive token alignment of
`find_quote_in_text` (lines 137-143): walk the text words once; each text
word equal (case-insensitively) to the next expected quote word advances
the quote pointer and counts as matched. -/
def alignCount : List String → List String → ℕ
  | _, [] => 0
  | [], _ :: _ => 0
  | q :: qs, t :: ts =>
    if lowerStr t = lowerStr q then 1 + alignCount qs ts
    else alignCount (q :: qs) ts

/-- The partial-match ratio `matched_words / len(quote_words)` of
`find_quote_in_text` (line 145), with the `if quote_words else 0` guard. -/
def matchRatio (quote text : String) : ℚ :=
  let qws := pySplit (normalizeText quote)
  let tws := pySplit (normalizeText text)
  if qws.length = 0 then 0 else (alignCount qws tws : ℚ) / (qws.length : ℚ)

/-- Round half to even, modelling Python percentage formatting
`f"\x7bratio:.0%\x7d"` of a ratio. -/
def halfEvenZ (q : ℚ) : ℤ :=
  if q - (⌊q⌋ : ℚ) < 1/2 then ⌊q⌋
  else if 1/2 < q - (⌊q⌋ : ℚ) then ⌊q⌋ + 1
  else if ⌊q⌋ % 2 = 0 then ⌊q⌋ else ⌊q⌋ + 1

/-- The integer percentage printed in the confidence labels. -/
def pctNat (r : ℚ) : ℕ := (halfEvenZ (100 * r)).toNat

/-- `halfEvenZ` on the exact fraction `num/den`, phrased over `ℕ` so it
is kernel-executable (the `ℚ` instances of Lean do not reduce in the
kernel); `pctNat_div` proves it agrees with `pctNat`. -/
def halfEvenNat (num den : ℕ) : ℕ :=
  if 2 * (num % den) < den then num / den
  else if den < 2 * (num % den) then num / den + 1
  else if (num / den) % 2 = 0 then num / den else num / den + 1

/-- `FactValidator.find_quote_in_text` (lines 110-150): exact substring
match on the normalized strings, else accept an ordered partial match of
ratio at least 0.7; returns the found flag and the textual label. -/
def findQuoteInText (quote text : String) : Bool × String :=
  if isSubstrB (normalizeText quote) (normalizeText text) then
    (true, "exact match")
  else if matchRatio quote text ≥ 7/10 then
    (true, "partial match (" ++ natToStr (pctNat (matchRatio quote text)) ++ "%)")
  else
    (false, "not found (only " ++ natToStr (pctNat (matchRatio quote text)) ++ "% match)")

/-- `pctNat (matchRatio quote text)` phrased over `ℕ` (see
`halfEvenNat`); `pctNat_matchRatio` proves the agreement. -/
def pctRun (quote text : String) : ℕ :=
  if (pySplit (normalizeText quote)).length = 0 then 0
  else halfEvenNat
    (100 * alignCount (pySplit (normalizeText quote)) (pySplit (normalizeText text)))
    (pySplit (normalizeText quote)).length

/-- Kernel-executable form of `findQuoteInText` (the `ℚ` threshold test
is replaced by the equivalent cross-multiplied `ℕ` test);
`findQuoteInText_eval` proves the two functions equal, which witnesses
use to evaluate the matcher on concrete strings. -/
def findQuoteRun (quote text : String) : Bool × String :=
  if isSubstrB (normalizeText quote) (normalizeText text) then
    (true, "exact match")
  else if 0 < (pySplit (normalizeText quote)).length ∧
      7 * (pySplit (normalizeText quote)).length ≤
        10 * alignCount (pySplit (normalizeText quote)) (pySplit (normalizeText text)) then
    (true, "partial match (" ++ natToStr (pctRun quote text) ++ "%)")
  else
    (false, "not found (only " ++ natToStr (pctRun quote text) ++ "% match)")

/-- Python `int(...)` as reachable from `parse_line_range`: strip
whitespace, allow one leading `+`, then a non-empty digit run.  (No `-`
can reach `int` there: a minus sign in the location would either trigger
the range branch, whose `split("-")` removes every dash, or not be
present at all in the single-line branch.) -/
def parsePyNat (s : String) : Option ℕ :=
  let t := (stripWs s).toList
  let t := if t.headD ' ' = '+' then t.drop 1 else t
  if t.length ≠ 0 && t.all Char.isDigit then
    some (t.foldl (fun n c => n * 10 + (c.toNat - 48)) 0)
  else none

/-- Accumulator loop of `splitOnDash`. -/
def splitOnDashGo : List Char → List Char → List (List Char)
  | [], cur => [cur.reverse]
  | c :: cs, cur =>
    if c = '-' then cur.reverse :: splitOnDashGo cs []
    else splitOnDashGo cs (c :: cur)

/-- Python `str.split("-")` (keeps empty pieces). -/
def splitOnDash (s : String) : List String :=
  (splitOnDashGo s.toList []).map String.mk

/-- `FactValidator.parse_line_range` (lines 49-67): delete the literal
substrings `Lines` then `Line` (case-sensitively, as `str.replace`
does), strip, then either split on `-` into exactly two integers or
parse a single integer; `none` models the exceptions `int` or tuple
unpacking raise on malformed input. -/
def parseLineRange (location : String) : Option (ℕ × ℕ) :=
  let loc := stripWs (pyReplace (pyReplace location "Lines" "") "Line" "")
  if loc.toList.any (· = '-') then
    match splitOnDash loc with
    | [a, b] => do
      let x ← parsePyNat a
      let y ← parsePyNat b
      pure (x, y)
    | _ => none
  else
    (parsePyNat loc).map (fun n => (n, n))

/-- `FactValidator.get_line_text` (lines 87-108) with Python slice
semantics over `ℤ`: `start_idx = max(0, start-1)` is never negative, but
`end_idx = min(len(lines), end)` can be, and a negative slice bound
counts from the end of the list. -/
def sliceEndBound (len : ℕ) (endLine : ℤ) : ℤ :=
  if min (len : ℤ) endLine < 0 then max 0 ((len : ℤ) + min (len : ℤ) endLine)
  else min (len : ℤ) endLine

/-- `FactValidator.get_line_text` body: `start_idx = max(0, start-1)`,
`end_idx = min(len(lines), end)`, then the Python slice
`lines[start_idx:end_idx]` joined with `""` (see `sliceEndBound` for the
negative-bound behaviour of the slice). -/
def getLineText (lines : List String) (startLine endLine : ℤ) : String :=
  String.join ((lines.take (sliceEndBound lines.length endLine).toNat).drop
    (max 0 (startLine - 1)).toNat)

/-- The behaviour §4.1 of the spec describes for `getText`: clamp the
1-indexed inclusive range to `[1, lineCount]` and concatenate the
selected lines (an empty selection when the clamped range is empty).
This is the spec-side definition used to compare `getLineText` against
the clamping claim. -/
def clampedLineText (lines : List String) (startLine endLine : ℤ) : String :=
  String.join ((lines.take (min (lines.length : ℤ) endLine).toNat).drop
    (max 1 startLine - 1).toNat)

/-- The regex search `re.search(r\x27(\d+)%\x27, label)` of
`validate_fact` lines 392-395: the value of the first digit run that is
immediately followed by `%`. -/
def extractPctGo : List Char → Option ℕ → Option ℕ
  | [], _ => none
  | c :: cs, cur =>
    if c = '%' then
      match cur with
      | some v => some v
      | none => extractPctGo cs none
    else if c.isDigit then
      extractPctGo cs (some (cur.getD 0 * 10 + (c.toNat - 48)))
    else
      extractPctGo cs none

/-- Percentage extraction from a confidence label (see `extractPctGo`). -/
def extractPct (s : String) : Option ℕ := extractPctGo s.toList none

/-- The best-ratio scan of `validate_fact` lines 385-400: walk the
expanded-pass labels paired with their quotes, parse the percentage out
of each label, and keep the strictly largest ratio together with its
quote. -/
def bestOfUpd : Option ℕ → String → ℚ × String → ℚ × String
  | none, _, acc => acc
  | some p, qt, acc => if (p : ℚ) / 100 > acc.1 then ((p : ℚ) / 100, qt) else acc

def bestOfGo : List (String × String) → ℚ × String → ℚ × String
  | [], acc => acc
  | (lab, qt) :: rest, acc => bestOfGo rest (bestOfUpd (extractPct lab) qt acc)

/-- `best_match_ratio` / `best_quote_for_recovery` (initialised to `0`
and `quotes_to_validate[0]`). -/
def bestOf (labels quotes : List String) : ℚ × String :=
  bestOfGo (labels.zip quotes) (0, quotes.headD "")

/-- `bestOfGo` with the ratio kept as an integer percentage, for kernel
execution; `bestOf_eq` proves the agreement with `bestOf`. -/
def bestPctUpd : Option ℕ → String → ℕ × String → ℕ × String
  | none, _, acc => acc
  | some p, qt, acc => if acc.1 < p then (p, qt) else acc

/-- See `bestPctUpd`. -/
def bestPctGo : List (String × String) → ℕ × String → ℕ × String
  | [], acc => acc
  | (lab, qt) :: rest, acc => bestPctGo rest (bestPctUpd (extractPct lab) qt acc)

/-- `bestOf` as an integer percentage (see `bestPctGo`). -/
def bestPct (labels quotes : List String) : ℕ × String :=
  bestPctGo (labels.zip quotes) (0, quotes.headD "")

/-- One evidence-quote entry of the loosely-typed fact dictionary: a V5
dict entry (its `"quote"` field, defaulting to `""` when absent) or a
bare string. -/
inductive EvidenceEntry where
  | asDict (quote : String)
  | asStr (s : String)
deriving DecidableEq, Repr

/-- `eq.get("quote", "") if isinstance(eq, dict) else eq` (line 256). -/
def EvidenceEntry.quoteOf : EvidenceEntry → String
  | .asDict q => q
  | .asStr s => s

/-- The fields of a fact dictionary that `validate_fact` reads, with the
`dict.get` defaults of lines 246-259. -/
structure Fact where
  claim : String := ""
  source_location : String := ""
  evidence_quotes : List EvidenceEntry := []
  evidence_quote : String := ""
deriving DecidableEq, Repr

/-- Lines 250-261: the V5 `evidence_quotes` array wins when it is a
non-empty list; otherwise a non-empty V4 `evidence_quote` becomes a
singleton list. -/
def quotesToValidate (fact : Fact) : List String :=
  if fact.evidence_quotes ≠ [] then fact.evidence_quotes.map EvidenceEntry.quoteOf
  else if fact.evidence_quote ≠ "" then [fact.evidence_quote]
  else []

/-- The `ValidationResult` dataclass (lines 16-27), with its defaults. -/
structure ValidationResult where
  fact_index : ℕ
  claim : String
  is_valid : Bool
  error_message : String := ""
  actual_line_range : String := ""
  quote_snippet : String := ""
  was_recovered : Bool := false
  corrected_quote : Option String := none
  corrected_location : Option String := none
deriving DecidableEq, Repr

/-- The parsed JSON reply of the completion service inside
`attempt_fact_recovery`: `found` truthiness, `confidence` (default 0
via `result.get("confidence", 0)`), and the `"quote"` field whose
absence raises a caught `KeyError` (hence `Option`). -/
structure RecoveryReply where
  found : Bool
  confidence : ℚ
  quote : Option String
deriving DecidableEq, Repr

/-- `"Lines X-Y"` as produced by the validator. -/
def renderRange (s e : ℕ) : String :=
  "Lines " ++ natToStr s ++ "-" ++ natToStr e

/-- `quote[:60] + "..." if len(quote) > 60 else quote`. -/
def snippet60 (s : String) : String :=
  if s.length > 60 then strTake s 60 ++ "..." else s

/-- The success snippet (lines 289-291 / 341-343): first quote truncated
to 60 characters, plus a `(+k more)` marker for multi-quote facts. -/
def snippetOf (quotes : List String) : String :=
  let base := snippet60 (quotes.headD "")
  if quotes.length > 1 then
    base ++ " (+" ++ natToStr (quotes.length - 1) ++ " more)"
  else base

/-- `FactValidator.attempt_fact_recovery` (lines 152-232) downstream of
the external call: succeed only when the parsed reply exists, `found` is
truthy, `confidence >= 0.8`, the reply carries a quote, and an
independent `find_quote_in_text` re-check of that quote against the same
search context matches; the corrected location is the context window
rendered as a line range.  `recoveryRecheck` is the re-check of lines
218-228 (a reply without a `"quote"` key raises a caught `KeyError`,
hence `none`). -/
def recoveryRecheck : Option String → String → ℕ → ℕ → Option (String × String)
  | none, _, _, _ => none
  | some rq, ctx, startLine, endLine =>
    if (findQuoteInText rq ctx).1 then some (rq, renderRange startLine endLine)
    else none

/-- See `recoveryRecheck`: the gate of line 217 (`found` truthy and
`confidence >= 0.8`) followed by the independent re-check. -/
def attemptFactRecovery : Option RecoveryReply → String → String → String → ℕ → ℕ →
    Option (String × String)
  | none, _, _, _, _, _ => none
  | some r, _, _, ctx, startLine, endLine =>
    if r.found && decide (r.confidence ≥ 4/5) then
      recoveryRecheck r.quote ctx startLine endLine
    else none

/-- Lines 265-272: rejection when no evidence quotes are present. -/
def noQuotesResult (claim location : String) (factIndex : ℕ) : ValidationResult :=
  { fact_index := factIndex
    claim := strTake claim 80
    is_valid := false
    error_message := "No evidence quotes found (neither evidence_quote nor evidence_quotes)"
    actual_line_range := location
    quote_snippet := "" }

/-- Lines 316-322: rejection on an unparseable location string (note the
result leaves `actual_line_range` at its default). -/
def invalidLocResult (claim location : String) (factIndex : ℕ) : ValidationResult :=
  { fact_index := factIndex
    claim := strTake claim 80
    is_valid := false
    error_message := "Invalid location format: " ++ location }

/-- The successful result shape shared by lines 293-299, 345-351 and
372-378. -/
def validResult (claim : String) (factIndex : ℕ) (rng : String)
    (quotes : List String) : ValidationResult :=
  { fact_index := factIndex
    claim := strTake claim 80
    is_valid := true
    actual_line_range := rng
    quote_snippet := snippetOf quotes }

/-- Lines 300-310: chunk-mode rejection with the `k/n` message. -/
def chunkRejResult (claim location : String) (factIndex : ℕ)
    (quotes : List String) (failedCount : ℕ) : ValidationResult :=
  { fact_index := factIndex
    claim := strTake claim 80
    is_valid := false
    error_message := natToStr failedCount ++ "/" ++ natToStr quotes.length
      ++ " quotes not found in chunk"
    actual_line_range := location
    quote_snippet := snippet60 (quotes.headD "") }

/-- Lines 428-441: document-mode rejection; the failed count is the one
collected in the first (exact-range) pass, and the appended "best match"
is the expanded-pass label of the FIRST quote. -/
def docRejResult (claim : String) (factIndex : ℕ) (startLine endLine : ℕ)
    (quotes : List String) (failedCount : ℕ) (expandedLabels : List String) :
    ValidationResult :=
  { fact_index := factIndex
    claim := strTake claim 80
    is_valid := false
    error_message := natToStr failedCount ++ "/" ++ natToStr quotes.length
      ++ " quotes not found in specified lines or nearby"
      ++ (if expandedLabels.isEmpty then ""
          else " (best match: " ++ expandedLabels.headD "" ++ ")")
    actual_line_range := renderRange startLine endLine
    quote_snippet := snippet60 (quotes.headD "") }

/-- Lines 414-426: the recovered result. -/
def recoveredResult (claim : String) (factIndex : ℕ)
    (correctedQuote correctedLocation : String) : ValidationResult :=
  { fact_index := factIndex
    claim := strTake claim 80
    is_valid := true
    actual_line_range := correctedLocation
    quote_snippet := snippet60 correctedQuote
    was_recovered := true
    corrected_quote := some correctedQuote
    corrected_location := some correctedLocation }

/-- Chunk-mode branch of `validate_fact` (lines 276-310). -/
def validateChunk (claim location : String) (quotes : List String)
    (factIndex : ℕ) (chunkText : String) : ValidationResult :=
  let failed := quotes.filter (fun q => !(findQuoteInText q chunkText).1)
  if failed.isEmpty then validResult claim factIndex location quotes
  else chunkRejResult claim location factIndex quotes failed.length

/-- Lines 354-355: the expanded search window, 5 lines on each side,
clamped to the document bounds (on `ℕ` the truncated `startLine - 5`
agrees with Python's `max(1, start_line - 5)`). -/
def expandedWindow (lines : List String) (startLine endLine : ℕ) : ℕ × ℕ :=
  (max 1 (startLine - 5), min lines.length (endLine + 5))

/-- Lines 406-407: the recovery window, 20 lines on each side, clamped
to the document bounds. -/
def recoveryWindow (lines : List String) (startLine endLine : ℕ) : ℕ × ℕ :=
  (max 1 (startLine - 20), min lines.length (endLine + 20))

/-- The quotes that failed the first, exact-range pass of document-mode
`validate_fact` (lines 328-337). -/
def origFailed (lines : List String) (quotes : List String)
    (startLine endLine : ℕ) : List String :=
  quotes.filter
    (fun q => !(findQuoteInText q (getLineText lines (startLine : ℤ) (endLine : ℤ))).1)

/-- The per-quote `find_quote_in_text` outcomes of the expanded pass
(lines 358-365). -/
def expandedHits (lines : List String) (quotes : List String)
    (startLine endLine : ℕ) : List (Bool × String) :=
  quotes.map (fun q => findQuoteInText q
    (getLineText lines ((expandedWindow lines startLine endLine).1 : ℤ)
      ((expandedWindow lines startLine endLine).2 : ℤ)))

/-- The expanded-search / recovery tail of document-mode `validate_fact`
(lines 353-441), entered when some quote failed against the exact
claimed range. -/
def validateDocExpanded (reply? : Option RecoveryReply) (lines : List String)
    (claim : String) (quotes : List String) (factIndex : ℕ)
    (startLine endLine : ℕ) (failedCount : ℕ) : ValidationResult :=
  let hits := expandedHits lines quotes startLine endLine
  if hits.all (·.1) then
    validResult claim factIndex
      (renderRange (expandedWindow lines startLine endLine).1
          (expandedWindow lines startLine endLine).2 ++ " (expanded search)")
      quotes
  else
    let best := bestOf (hits.map (·.2)) quotes
    let rej := docRejResult claim factIndex startLine endLine quotes failedCount
      (hits.map (·.2))
    if 2/5 ≤ best.1 ∧ best.1 < 7/10 then
      let rs := (recoveryWindow lines startLine endLine).1
      let re2 := (recoveryWindow lines startLine endLine).2
      match attemptFactRecovery reply? claim best.2
          (getLineText lines (rs : ℤ) (re2 : ℤ)) rs re2 with
      | some (cq, cl) => recoveredResult claim factIndex cq cl
      | none => rej
    else rej

/-- Document-mode branch of `validate_fact` after a successful location
parse (lines 324-441). -/
def validateDocParsed (reply? : Option RecoveryReply) (lines : List String)
    (claim : String) (quotes : List String) (factIndex : ℕ)
    (startLine endLine : ℕ) : ValidationResult :=
  let failed := origFailed lines quotes startLine endLine
  if failed.isEmpty then
    validResult claim factIndex (renderRange startLine endLine) quotes
  else
    validateDocExpanded reply? lines claim quotes factIndex startLine endLine
      failed.length

/-- `FactValidator.validate_fact` (lines 234-441).  `reply?` is the
parsed reply the completion service would give for this fact's recovery
prompt (see `RecoveryReply`); `lines` is `self.lines`. -/
def validateFact (reply? : Option RecoveryReply) (lines : List String)
    (fact : Fact) (factIndex : ℕ) (chunkText : Option String) : ValidationResult :=
  let quotes := quotesToValidate fact
  if quotes.isEmpty then noQuotesResult fact.claim fact.source_location factIndex
  else
    match chunkText with
    | some ct => validateChunk fact.claim fact.source_location quotes factIndex ct
    | none =>
      match parseLineRange fact.source_location with
      | none => invalidLocResult fact.claim fact.source_location factIndex
      | some (s, e) => validateDocParsed reply? lines fact.claim quotes factIndex s e

/-- The loop body of `validate_facts` (lines 443-462): one result per
fact, carrying the running index. -/
def validateFactsGo (oracle : ℕ → Option RecoveryReply) (lines : List String) :
    ℕ → List Fact → List ValidationResult
  | _, [] => []
  | i, f :: fs =>
    validateFact (oracle i) lines f i none :: validateFactsGo oracle lines (i + 1) fs

/-- `FactValidator.validate_facts`: document-mode validation of every
fact with its enumeration index; `oracle i` is the completion-service
reply available to fact `i`. -/
def validateFacts (oracle : ℕ → Option RecoveryReply) (lines : List String)
    (facts : List Fact) : List ValidationResult :=
  validateFactsGo oracle lines 0 facts

/-- The summary-statistics dictionary of `validate_session` lines
497-502 (identical in `validate_consolidated_facts`). -/
structure BatchStats where
  total_facts : ℕ
  valid_facts : ℕ
  invalid_facts : ℕ
  validation_rate : ℚ
deriving DecidableEq, Repr

/-- The stats computation: count valid results, subtract for invalid,
and guard the rate against an empty result list. -/
def computeStats (results : List ValidationResult) : BatchStats :=
  let valid := results.countP (·.is_valid)
  { total_facts := results.length
    valid_facts := valid
    invalid_facts := results.length - valid
    validation_rate :=
      if results.length = 0 then 0 else (valid : ℚ) / (results.length : ℚ) }

/-!
Concrete sample documents and facts used by the witness and
counterexample theorems.
-/

/-- The spec's example line, as a one-line document. -/
def aesLines : List String := ["All backups are encrypted using AES-256 encryption.\n"]

/-- A fact citing `aesLines` line 1 exactly. -/
def aesFact : Fact :=
  ⟨"Backups encrypted with AES-256", "Lines 1-1",
    [.asStr "All backups are encrypted using AES-256 encryption."], ""⟩

/-- A two-quote fact: one quote present in `chunkDemoText`, one absent. -/
def chunkDemoFact : Fact :=
  ⟨"c", "Lines 1-2", [.asStr "daily backups", .asStr "quarterly audits"], ""⟩

/-- Chunk text containing only the first quote of `chunkDemoFact`. -/
def chunkDemoText : String := "The system performs daily backups at 2 AM."

/-- One-line document for the partial-match scenarios. -/
def greekLines : List String := ["alpha beta gamma delta\n"]

/-- Two failing quotes against `greekLines`: the first matches 0% of its
tokens, the second 50% (hence medium confidence). -/
def greekFact : Fact :=
  ⟨"c", "Lines 1-1", [.asStr "zzz yyy xxx www", .asStr "alpha beta xxx yyy"], ""⟩

/-- A single-quote fact at 50% match against `greekLines`. -/
def greekFact1 : Fact := ⟨"c", "Lines 1-1", [.asStr "alpha beta xxx yyy"], ""⟩

/-- A seven-line document whose line 7 is the word cited by
`lcLocFact`. -/
def sevenLines : List String :=
  ["one\n", "two\n", "three\n", "four\n", "five\n", "six\n", "seven\n"]

/-- A fact whose location uses lowercase `line` and whose quote is
exactly the text of line 7. -/
def lcLocFact : Fact := ⟨"c", "line 7", [.asStr "seven"], ""⟩

/-- A fact whose evidence list is non-empty but consists only of
whitespace-only quote strings. -/
def emptyQuoteFact : Fact := ⟨"c", "Lines 1-1", [.asStr "", .asStr " "], ""⟩

/-! ## Helper lemmas -/

lemma findQuote_exact {q t : String}
    (h : isSubstrB (normalizeText q) (normalizeText t) = true) :
    findQuoteInText q t = (true, "exact match") := by
  unfold findQuoteInText
  simp [h]

lemma isSubstrB_empty {q : String} (h : normalizeText q = "") (t : String) :
    isSubstrB (normalizeText q) t = true := by
  rw [h]
  unfold isSubstrB
  rw [List.any_eq_true]
  exact ⟨0, by simp, by simp [List.isPrefixOf]⟩

lemma pctNat_zero : pctNat 0 = 0 := by
  unfold pctNat halfEvenZ
  norm_num

lemma halfEvenZ_natDiv (M n : ℕ) (hn0 : 0 < n) :
    (halfEvenZ ((M : ℚ)/(n : ℚ))).toNat = halfEvenNat M n := by
  have hnq : (0 : ℚ) < (n : ℚ) := by exact_mod_cast hn0
  have hdm : n * (M / n) + M % n = M := Nat.div_add_mod M n
  have hmod : M % n < n := Nat.mod_lt M hn0
  have hflr : ⌊(M : ℚ)/(n : ℚ)⌋ = ((M / n : ℕ) : ℤ) := by
    rw [Int.floor_eq_iff]
    constructor
    · rw [Int.cast_natCast, le_div_iff₀ hnq]
      exact_mod_cast Nat.div_mul_le_self M n
    · rw [Int.cast_natCast, div_lt_iff₀ hnq]
      have hlt : M < (M / n + 1) * n := by
        have h2 : (M / n + 1) * n = n * (M / n) + n := by ring
        linarith [hdm, hmod, h2]
      exact_mod_cast hlt
  have hfrac : (M : ℚ)/(n : ℚ) - (((M / n : ℕ) : ℤ) : ℚ) =
      ((M % n : ℕ) : ℚ)/(n : ℚ) := by
    have key : (M : ℚ) = (n : ℚ) * ((M / n : ℕ) : ℚ) + ((M % n : ℕ) : ℚ) := by
      exact_mod_cast hdm.symm
    rw [Int.cast_natCast]
    field_simp
    linarith [key]
  unfold halfEvenZ halfEvenNat
  rw [hflr, hfrac]
  generalize M / n = d
  generalize M % n = r
  have hhalf : ((r : ℕ) : ℚ)/(n : ℚ) < 1/2 ↔ 2 * r < n := by
    constructor
    · intro h
      by_contra hc
      push_neg at hc
      have hc' : (n : ℚ) ≤ 2 * ((r : ℕ) : ℚ) := by exact_mod_cast hc
      have h2 := (div_lt_iff₀ hnq).mp h
      linarith
    · intro h
      have h' : 2 * ((r : ℕ) : ℚ) < (n : ℚ) := by exact_mod_cast h
      rw [div_lt_iff₀ hnq]
      linarith
  have hhalf' : (1:ℚ)/2 < ((r : ℕ) : ℚ)/(n : ℚ) ↔ n < 2 * r := by
    constructor
    · intro h
      by_contra hc
      push_neg at hc
      have hc' : 2 * ((r : ℕ) : ℚ) ≤ (n : ℚ) := by exact_mod_cast hc
      have h2 := (lt_div_iff₀ hnq).mp h
      linarith
    · intro h
      have h' : (n : ℚ) < 2 * ((r : ℕ) : ℚ) := by exact_mod_cast h
      rw [lt_div_iff₀ hnq]
      linarith
  rcases Nat.lt_trichotomy (2 * r) n with h1 | h1 | h1
  · rw [if_pos (hhalf.mpr h1), if_pos h1]
    omega
  · rw [if_neg (show ¬(((r : ℕ) : ℚ)/(n : ℚ) < 1/2) by rw [hhalf]; omega),
      if_neg (show ¬(2 * r < n) by omega),
      if_neg (show ¬((1:ℚ)/2 < ((r : ℕ) : ℚ)/(n : ℚ)) by rw [hhalf']; omega),
      if_neg (show ¬(n < 2 * r) by omega)]
    by_cases hp : d % 2 = 0
    · rw [if_pos (show ((d : ℕ) : ℤ) % 2 = 0 by omega), if_pos hp]
      omega
    · rw [if_neg (show ¬(((d : ℕ) : ℤ) % 2 = 0) by omega), if_neg hp]
      omega
  · rw [if_neg (show ¬(((r : ℕ) : ℚ)/(n : ℚ) < 1/2) by rw [hhalf]; omega),
      if_neg (show ¬(2 * r < n) by omega),
      if_pos (show (1:ℚ)/2 < ((r : ℕ) : ℚ)/(n : ℚ) by rw [hhalf']; omega),
      if_pos h1]
    omega

lemma pctNat_div (m n : ℕ) (hn : n ≠ 0) :
    pctNat ((m : ℚ) / (n : ℚ)) = halfEvenNat (100 * m) n := by
  have harg : (100 : ℚ) * ((m : ℚ)/(n : ℚ)) = ((100 * m : ℕ) : ℚ)/(n : ℚ) := by
    push_cast; ring
  unfold pctNat
  rw [harg]
  exact halfEvenZ_natDiv (100 * m) n (Nat.pos_of_ne_zero hn)

lemma pctNat_matchRatio (q t : String) : pctNat (matchRatio q t) = pctRun q t := by
  unfold matchRatio pctRun
  by_cases h : (pySplit (normalizeText q)).length = 0
  · rw [if_pos h, if_pos h, pctNat_zero]
  · rw [if_neg h, if_neg h]
    exact pctNat_div _ _ h

lemma matchRatio_ge_iff (q t : String) :
    7/10 ≤ matchRatio q t ↔
      0 < (pySplit (normalizeText q)).length ∧
        7 * (pySplit (normalizeText q)).length ≤
          10 * alignCount (pySplit (normalizeText q)) (pySplit (normalizeText t)) := by
  unfold matchRatio
  by_cases h : (pySplit (normalizeText q)).length = 0
  · rw [if_pos h]
    simp [h]
  · rw [if_neg h]
    have hl : 0 < (pySplit (normalizeText q)).length := Nat.pos_of_ne_zero h
    have hlq : (0 : ℚ) < ((pySplit (normalizeText q)).length : ℚ) := by exact_mod_cast hl
    rw [div_le_div_iff (by norm_num) hlq]
    constructor
    · intro h'
      refine ⟨hl, ?_⟩
      have h'' : 7 * (pySplit (normalizeText q)).length ≤
          alignCount (pySplit (normalizeText q)) (pySplit (normalizeText t)) * 10 := by
        exact_mod_cast h'
      omega
    · rintro ⟨-, h'⟩
      have h'' : 7 * (pySplit (normalizeText q)).length ≤
          alignCount (pySplit (normalizeText q)) (pySplit (normalizeText t)) * 10 := by
        omega
      exact_mod_cast h''

lemma findQuoteInText_eval (q t : String) : findQuoteInText q t = findQuoteRun q t := by
  unfold findQuoteInText findQuoteRun
  simp only [ge_iff_le, matchRatio_ge_iff, pctNat_matchRatio]

lemma bestOfUpd_eq (o : Option ℕ) (qt : String) (b : ℕ) (bq : String) :
    bestOfUpd o qt ((b : ℚ)/100, bq) =
      (((bestPctUpd o qt (b, bq)).1 : ℚ)/100, (bestPctUpd o qt (b, bq)).2) := by
  cases o with
  | none => rfl
  | some p =>
    have hcmp : ((p : ℚ)/100 > (b : ℚ)/100) ↔ b < p := by
      rw [gt_iff_lt, div_lt_div_iff₀ (by norm_num) (by norm_num)]
      constructor
      · intro h
        have h' : b * 100 < p * 100 := by exact_mod_cast h
        omega
      · intro h
        have h' : b * 100 < p * 100 := by omega
        exact_mod_cast h'
    simp only [bestOfUpd, bestPctUpd]
    by_cases hbp : b < p
    · rw [if_pos (by simpa using hcmp.mpr hbp), if_pos hbp]
    · rw [if_neg (by simpa using fun hh => hbp (hcmp.mp hh)), if_neg hbp]

lemma bestOfGo_eq : ∀ (l : List (String × String)) (b : ℕ) (bq : String),
    bestOfGo l ((b : ℚ)/100, bq) =
      (((bestPctGo l (b, bq)).1 : ℚ)/100, (bestPctGo l (b, bq)).2)
  | [], _, _ => rfl
  | (lab, qt) :: rest, b, bq => by
    simp only [bestOfGo, bestPctGo]
    rw [bestOfUpd_eq]
    exact bestOfGo_eq rest (bestPctUpd (extractPct lab) qt (b, bq)).1
      (bestPctUpd (extractPct lab) qt (b, bq)).2

lemma bestOf_eq (labels quotes : List String) :
    bestOf labels quotes =
      (((bestPct labels quotes).1 : ℚ)/100, (bestPct labels quotes).2) := by
  unfold bestOf bestPct
  rw [show (0 : ℚ) = ((0 : ℕ) : ℚ)/100 by norm_num]
  exact bestOfGo_eq _ 0 _

lemma band_iff (p : ℕ) :
    (2/5 ≤ ((p : ℚ)/100) ∧ ((p : ℚ)/100) < 7/10) ↔ (40 ≤ p ∧ p < 70) := by
  have h1 : (2/5 : ℚ) ≤ (p : ℚ)/100 ↔ 40 ≤ p := by
    rw [div_le_div_iff (by norm_num) (by norm_num)]
    constructor
    · intro h
      have h' : 2 * 100 ≤ p * 5 := by exact_mod_cast h
      omega
    · intro h
      have h' : 2 * 100 ≤ p * 5 := by omega
      exact_mod_cast h'
  have h2 : (p : ℚ)/100 < 7/10 ↔ p < 70 := by
    rw [div_lt_div_iff (by norm_num) (by norm_num)]
    constructor
    · intro h
      have h' : p * 10 < 7 * 100 := by exact_mod_cast h
      omega
    · intro h
      have h' : p * 10 < 7 * 100 := by omega
      exact_mod_cast h'
  rw [h1, h2]

lemma validateFact_chunk {reply? : Option RecoveryReply} {lines : List String}
    {fact : Fact} {i : ℕ} {ct : String} (hq : quotesToValidate fact ≠ []) :
    validateFact reply? lines fact i (some ct) =
      validateChunk fact.claim fact.source_location (quotesToValidate fact) i ct := by
  unfold validateFact
  simp [List.isEmpty_iff, hq]

lemma validateFact_docParsed {reply? : Option RecoveryReply} {lines : List String}
    {fact : Fact} {i s e : ℕ} (hq : quotesToValidate fact ≠ [])
    (hp : parseLineRange fact.source_location = some (s, e)) :
    validateFact reply? lines fact i none =
      validateDocParsed reply? lines fact.claim (quotesToValidate fact) i s e := by
  unfold validateFact
  simp [List.isEmpty_iff, hq, hp]

lemma validateFact_badLoc {reply? : Option RecoveryReply} {lines : List String}
    {fact : Fact} {i : ℕ} (hq : quotesToValidate fact ≠ [])
    (hp : parseLineRange fact.source_location = none) :
    validateFact reply? lines fact i none =
      invalidLocResult fact.claim fact.source_location i := by
  unfold validateFact
  simp [List.isEmpty_iff, hq, hp]

lemma validateDocParsed_allFound {reply? : Option RecoveryReply} {lines : List String}
    {claim : String} {quotes : List String} {i s e : ℕ}
    (h : origFailed lines quotes s e = []) :
    validateDocParsed reply? lines claim quotes i s e =
      validResult claim i (renderRange s e) quotes := by
  unfold validateDocParsed
  simp [h]

lemma validateDocParsed_someFailed {reply? : Option RecoveryReply} {lines : List String}
    {claim : String} {quotes : List String} {i s e : ℕ}
    (h : origFailed lines quotes s e ≠ []) :
    validateDocParsed reply? lines claim quotes i s e =
      validateDocExpanded reply? lines claim quotes i s e
        (origFailed lines quotes s e).length := by
  unfold validateDocParsed
  simp [List.isEmpty_iff, h]

lemma validateFactsGo_length (oracle : ℕ → Option RecoveryReply)
    (lines : List String) :
    ∀ (fs : List Fact) (i : ℕ), (validateFactsGo oracle lines i fs).length = fs.length
  | [], _ => rfl
  | _ :: fs, i => by
    simpa [validateFactsGo] using validateFactsGo_length oracle lines fs (i + 1)

lemma validateFactsGo_get? (oracle : ℕ → Option RecoveryReply)
    (lines : List String) :
    ∀ (fs : List Fact) (i j : ℕ),
      (validateFactsGo oracle lines i fs).get? j =
        (fs.get? j).map (fun f => validateFact (oracle (i + j)) lines f (i + j) none)
  | [], _, _ => by simp [validateFactsGo]
  | f :: fs, i, 0 => by simp [validateFactsGo]
  | f :: fs, i, j + 1 => by
    have := validateFactsGo_get? oracle lines fs (i + 1) j
    simpa [validateFactsGo, Nat.add_assoc, Nat.add_comm 1 j] using this

lemma validateChunk_allFound {claim location : String} {quotes : List String}
    {i : ℕ} {ct : String}
    (h : quotes.filter (fun q => !(findQuoteInText q ct).1) = []) :
    validateChunk claim location quotes i ct = validResult claim i location quotes := by
  simp [validateChunk, h]

lemma validateChunk_failed {claim location : String} {quotes : List String}
    {i : ℕ} {ct : String}
    (h : quotes.filter (fun q => !(findQuoteInText q ct).1) ≠ []) :
    validateChunk claim location quotes i ct =
      chunkRejResult claim location i quotes
        (quotes.filter (fun q => !(findQuoteInText q ct).1)).length := by
  simp only [validateChunk]
  rw [if_neg (by simpa [List.isEmpty_iff] using h)]

lemma validateDocExpanded_allFound {reply? : Option RecoveryReply}
    {lines : List String} {claim : String} {quotes : List String} {i s e k : ℕ}
    (h : (expandedHits lines quotes s e).all (·.1) = true) :
    validateDocExpanded reply? lines claim quotes i s e k =
      validResult claim i
        (renderRange (expandedWindow lines s e).1 (expandedWindow lines s e).2
          ++ " (expanded search)") quotes := by
  simp [validateDocExpanded, h]

lemma validateDocExpanded_reject {reply? : Option RecoveryReply}
    {lines : List String} {claim : String} {quotes : List String} {i s e k : ℕ}
    (h : (expandedHits lines quotes s e).all (·.1) = false)
    (hband : ¬(2/5 ≤ (bestOf ((expandedHits lines quotes s e).map (·.2)) quotes).1 ∧
      (bestOf ((expandedHits lines quotes s e).map (·.2)) quotes).1 < 7/10)) :
    validateDocExpanded reply? lines claim quotes i s e k =
      docRejResult claim i s e quotes k ((expandedHits lines quotes s e).map (·.2)) := by
  simp only [validateDocExpanded]
  rw [if_neg (by simp [h]), if_neg hband]

lemma validateDocExpanded_recovery {reply? : Option RecoveryReply}
    {lines : List String} {claim : String} {quotes : List String} {i s e k : ℕ}
    (h : (expandedHits lines quotes s e).all (·.1) = false)
    (hband : 2/5 ≤ (bestOf ((expandedHits lines quotes s e).map (·.2)) quotes).1 ∧
      (bestOf ((expandedHits lines quotes s e).map (·.2)) quotes).1 < 7/10) :
    validateDocExpanded reply? lines claim quotes i s e k =
      (match attemptFactRecovery reply? claim
          (bestOf ((expandedHits lines quotes s e).map (·.2)) quotes).2
          (getLineText lines ((recoveryWindow lines s e).1 : ℤ)
            ((recoveryWindow lines s e).2 : ℤ))
          (recoveryWindow lines s e).1 (recoveryWindow lines s e).2 with
        | some (cq, cl) => recoveredResult claim i cq cl
        | none => docRejResult claim i s e quotes k
            ((expandedHits lines quotes s e).map (·.2))) := by
  simp only [validateDocExpanded]
  rw [if_neg (by simp [h]), if_pos hband]

/-! ## Claims -/

/-- **C2**: recovery of a medium-confidence fact succeeds exactly when the
completion service's parsed reply has `found = true`, `confidence ≥ 0.80`
(inclusive), carries a quote, and an independent `find_quote_in_text`
re-check of that quote against the same recovery window matches; the
corrected location is then the recovery window's line range.  In
particular, a returned quote that the re-check cannot find in the window
(whatever `found`/`confidence` say) yields no recovery, so the fact stays
rejected. -/
theorem c2_recovery_gate (reply? : Option RecoveryReply)
    (claim origQuote ctx : String) (s e : ℕ) (out : String × String) :
    attemptFactRecovery reply? claim origQuote ctx s e = some out ↔
      ∃ r, reply? = some r ∧ r.found = true ∧ (4 : ℚ)/5 ≤ r.confidence ∧
        ∃ q, r.quote = some q ∧ (findQuoteInText q ctx).1 = true ∧
          out = (q, renderRange s e) := by
  cases reply? with
  | none => simp [attemptFactRecovery]
  | some r =>
    simp only [attemptFactRecovery]
    by_cases hf1 : r.found = true
    · by_cases hf2 : (4 : ℚ)/5 ≤ r.confidence
      · rw [if_pos (show (r.found && decide (r.confidence ≥ 4/5)) = true by
          rw [hf1, decide_eq_true hf2]; rfl)]
        cases hr : r.quote with
        | none =>
          rw [show recoveryRecheck none ctx s e = none from rfl]
          refine iff_of_false (fun hh => Option.noConfusion hh) ?_
          rintro ⟨r', heq, -, -, q', hq', -, -⟩
          rw [Option.some.injEq] at heq
          subst heq
          rw [hr] at hq'
          exact Option.noConfusion hq'
        | some q =>
          by_cases ht : (findQuoteInText q ctx).1 = true
          · have hL : recoveryRecheck (some q) ctx s e = some (q, renderRange s e) := by
              simp [recoveryRecheck, ht]
            rw [hL, Option.some.injEq]
            constructor
            · intro hout
              exact ⟨r, rfl, hf1, hf2, q, hr, ht, hout.symm⟩
            · rintro ⟨r', heq, -, -, q', hq', -, hout⟩
              rw [Option.some.injEq] at heq
              subst heq
              rw [hr, Option.some.injEq] at hq'
              subst hq'
              rw [hout]
          · have hL : recoveryRecheck (some q) ctx s e = none := by
              simp [recoveryRecheck, ht]
            rw [hL]
            refine iff_of_false (fun hh => Option.noConfusion hh) ?_
            rintro ⟨r', heq, -, -, q', hq', hfind, -⟩
            rw [Option.some.injEq] at heq
            subst heq
            rw [hr, Option.some.injEq] at hq'
            subst hq'
            exact ht hfind
      · rw [if_neg (show ¬((r.found && decide (r.confidence ≥ 4/5)) = true) by
          simp [hf2])]
        refine iff_of_false (fun hh => Option.noConfusion hh) ?_
        rintro ⟨r', heq, -, hc, -⟩
        rw [Option.some.injEq] at heq
        subst heq
        exact hf2 hc
    · rw [if_neg (show ¬((r.found && decide (r.confidence ≥ 4/5)) = true) by
        simp [hf1])]
      refine iff_of_false (fun hh => Option.noConfusion hh) ?_
      rintro ⟨r', heq, hfnd, -⟩
      rw [Option.some.injEq] at heq
      subst heq
      exact hf1 hfnd

/-- **C4**: when the normalized quote is not a substring of the normalized
window, `find_quote_in_text` accepts exactly the quotes whose ordered
partial-match ratio reaches 0.70, inclusively: ratio exactly 0.70 gives a
match labelled `partial match (70%)`, and a ratio strictly below 0.70
gives no match with the `not found (only R% match)` label. -/
theorem c4_partial_threshold (quote text : String)
    (h : isSubstrB (normalizeText quote) (normalizeText text) = false) :
    ((findQuoteInText quote text).1 = true ↔ 7/10 ≤ matchRatio quote text) ∧
    (matchRatio quote text = 7/10 →
      findQuoteInText quote text = (true, "partial match (70%)")) ∧
    (matchRatio quote text < 7/10 →
      findQuoteInText quote text =
        (false, "not found (only " ++ natToStr (pctNat (matchRatio quote text))
          ++ "% match)")) := by
  refine ⟨?_, ?_, ?_⟩
  · unfold findQuoteInText
    simp only [h, Bool.false_eq_true, if_false]
    by_cases hr : matchRatio quote text ≥ 7/10 <;> simp [hr, ge_iff_le]
  · intro hr
    unfold findQuoteInText
    simp only [h, Bool.false_eq_true, if_false]
    rw [hr, if_pos (by norm_num : (7/10 : ℚ) ≥ 7/10)]
    have h70 : pctNat ((7 : ℚ)/10) = 70 := by
      have hd := pctNat_div 7 10 (by norm_num)
      have hcast : ((7 : ℕ) : ℚ)/((10 : ℕ) : ℚ) = (7 : ℚ)/10 := by norm_num
      rw [hcast] at hd
      rw [hd]
      decide
    rw [h70]
    rfl
  · intro hr
    unfold findQuoteInText
    simp only [h, Bool.false_eq_true, if_false]
    rw [if_neg (not_le.mpr hr)]

/-- **C8 counterexample**: on a 3-line document, `get_line_text 1 (-1)`
returns the first two lines (Python's negative slice bound counts from
the end), not the text of the clamped range `[1, -1]`, which selects no
lines; so the claim's "clamp and concatenate" reading fails for negative
end bounds. -/
theorem c8_counterexample :
    getLineText ["a\n", "b\n", "c\n"] 1 (-1) = "a\nb\n" ∧
    clampedLineText ["a\n", "b\n", "c\n"] 1 (-1) = "" := by
  constructor <;> rfl

/-- **C8 amended**: for every start bound and every non-negative end
bound, `get_line_text` never fails and returns exactly the
order-preserving concatenation of the lines of the clamped range
(start clamped to ≥ 1, end clamped to ≤ the line count); in particular a
request far beyond the document bounds returns the clamped range's
text. -/
theorem c8_clamping (lines : List String) (s e : ℤ) (he : 0 ≤ e) :
    getLineText lines s e = clampedLineText lines s e := by
  unfold getLineText clampedLineText sliceEndBound
  have hlen : (0 : ℤ) ≤ (lines.length : ℤ) := Int.ofNat_nonneg _
  rw [if_neg (by omega)]
  have hidx : max 0 (s - 1) = max 1 s - 1 := by omega
  rw [hidx]

/-- Witness for C8: a request with `end = 10000` on a 3-line document
returns the clamped text. -/
theorem c8_clamping_witness :
    (0 : ℤ) ≤ 10000 ∧
      getLineText ["a\n", "b\n", "c\n"] 1 10000 =
        clampedLineText ["a\n", "b\n", "c\n"] 1 10000 :=
  ⟨by decide, c8_clamping ["a\n", "b\n", "c\n"] 1 10000 (by decide)⟩

/-- **C9**: `validate_facts` yields exactly one result per input fact, in
input order, and the aggregate statistics have `total_facts` equal to the
number of inputs and a `validation_rate` equal to `valid/total` when the
total is positive and `0` when it is zero. -/
theorem c9_one_result_per_fact (oracle : ℕ → Option RecoveryReply)
    (lines : List String) (facts : List Fact) :
    (validateFacts oracle lines facts).length = facts.length ∧
    (∀ j, (validateFacts oracle lines facts).get? j =
      (facts.get? j).map (fun f => validateFact (oracle j) lines f j none)) ∧
    (computeStats (validateFacts oracle lines facts)).total_facts = facts.length ∧
    (computeStats (validateFacts oracle lines facts)).validation_rate =
      (if facts.length = 0 then 0 else
        ((computeStats (validateFacts oracle lines facts)).valid_facts : ℚ)
          / (facts.length : ℚ)) := by
  have hlen : (validateFacts oracle lines facts).length = facts.length :=
    validateFactsGo_length oracle lines facts 0
  refine ⟨hlen, ?_, ?_, ?_⟩
  · intro j
    simpa using validateFactsGo_get? oracle lines facts 0 j
  · simpa [computeStats] using hlen
  · simp only [computeStats, hlen]

/-- **C1**: in document mode, a fact whose location parses and whose every
evidence quote normalizes to a substring of the normalized text of the
claimed line range is validated with `is_valid = true`,
`was_recovered = false`, and `actual_line_range` the literal parsed range
rendered as `Lines <start>-<end>`. -/
theorem c1_exact_match_guarantee (reply? : Option RecoveryReply)
    (lines : List String) (fact : Fact) (i s e : ℕ)
    (hp : parseLineRange fact.source_location = some (s, e))
    (hq : quotesToValidate fact ≠ [])
    (hsub : ∀ q ∈ quotesToValidate fact,
      isSubstrB (normalizeText q)
        (normalizeText (getLineText lines (s : ℤ) (e : ℤ))) = true) :
    (validateFact reply? lines fact i none).is_valid = true ∧
    (validateFact reply? lines fact i none).was_recovered = false ∧
    (validateFact reply? lines fact i none).actual_line_range = renderRange s e := by
  have hfail : origFailed lines (quotesToValidate fact) s e = [] := by
    unfold origFailed
    rw [List.filter_eq_nil]
    intro q hqmem
    simp [findQuote_exact (hsub q hqmem)]
  rw [validateFact_docParsed hq hp, validateDocParsed_allFound hfail]
  exact ⟨rfl, rfl, rfl⟩

/-- Witness for C1: the spec's own example, a one-line document cited
exactly. -/
theorem c1_exact_match_guarantee_witness :
    (parseLineRange aesFact.source_location = some (1, 1) ∧
      quotesToValidate aesFact ≠ [] ∧
      ∀ q ∈ quotesToValidate aesFact,
        isSubstrB (normalizeText q)
          (normalizeText (getLineText aesLines (1 : ℤ) (1 : ℤ))) = true) ∧
    ((validateFact none aesLines aesFact 0 none).is_valid = true ∧
      (validateFact none aesLines aesFact 0 none).was_recovered = false ∧
      (validateFact none aesLines aesFact 0 none).actual_line_range =
        renderRange 1 1) :=
  ⟨⟨by decide, by decide, by decide⟩,
    c1_exact_match_guarantee none aesLines aesFact 0 1 1 (by decide) (by decide)
      (by decide)⟩

/-- **C3**: in chunk mode a fact is valid iff every evidence quote
matches the chunk text; when k of its n quotes fail the error message is
exactly `k/n quotes not found in chunk`; and the result is entirely
independent of the recovery service and of the loaded document, so no
recovery is ever attempted in chunk mode. -/
theorem c3_chunk_all_quotes_and (reply? reply?' : Option RecoveryReply)
    (lines lines' : List String) (fact : Fact) (i : ℕ) (ct : String)
    (hq : quotesToValidate fact ≠ []) :
    ((validateFact reply? lines fact i (some ct)).is_valid = true ↔
      ∀ q ∈ quotesToValidate fact, (findQuoteInText q ct).1 = true) ∧
    ((quotesToValidate fact).filter (fun q => !(findQuoteInText q ct).1) ≠ [] →
      (validateFact reply? lines fact i (some ct)).error_message =
        natToStr ((quotesToValidate fact).filter
            (fun q => !(findQuoteInText q ct).1)).length
          ++ "/" ++ natToStr (quotesToValidate fact).length
          ++ " quotes not found in chunk") ∧
    validateFact reply? lines fact i (some ct) =
      validateFact reply?' lines' fact i (some ct) := by
  rw [validateFact_chunk hq, validateFact_chunk hq]
  refine ⟨?_, ?_, rfl⟩
  · by_cases hf : (quotesToValidate fact).filter (fun q => !(findQuoteInText q ct).1) = []
    · rw [validateChunk_allFound hf]
      refine iff_of_true rfl ?_
      intro q hqm
      have := (List.filter_eq_nil.mp hf) q hqm
      simpa using this
    · rw [validateChunk_failed hf]
      refine iff_of_false (by simp [chunkRejResult]) ?_
      intro hall
      apply hf
      rw [List.filter_eq_nil]
      intro q hqm
      simp [hall q hqm]
  · intro hf
    rw [validateChunk_failed hf]
    rfl

/-- Witness for C3: a two-quote fact, one quote present in the chunk and
one absent, is rejected with the message `1/2 quotes not found in
chunk`. -/
theorem c3_chunk_all_quotes_and_witness :
    quotesToValidate chunkDemoFact ≠ [] ∧
    ¬((validateFact none [] chunkDemoFact 0 (some chunkDemoText)).is_valid = true) ∧
    (validateFact none [] chunkDemoFact 0 (some chunkDemoText)).error_message =
      "1/2 quotes not found in chunk" := by
  have h := c3_chunk_all_quotes_and none none [] [] chunkDemoFact 0 chunkDemoText
    (by decide)
  have hfilter : (quotesToValidate chunkDemoFact).filter
      (fun q => !(findQuoteInText q chunkDemoText).1) = ["quarterly audits"] := by
    simp only [findQuoteInText_eval]
    decide
  refine ⟨by decide, ?_, ?_⟩
  · rw [h.1]
    intro hall
    have h2 := hall "quarterly audits" (by decide)
    rw [findQuoteInText_eval] at h2
    exact absurd h2 (by decide)
  · have hmsg := h.2.1 (by rw [hfilter]; decide)
    rw [hmsg, hfilter]
    decide

/-- **C5**: in document mode, once some quote fails against the exact
claimed range, the search window becomes exactly 5 lines wider on each
side (clamped to the document); if all quotes then match, the fact is
valid with the expanded range suffixed ` (expanded search)` and no
recovery; if the expanded pass still fails, recovery is attempted if and
only if the best match ratio parsed back from the expanded-pass labels
lies in [0.40, 0.70), and then with a window 20 lines wider on each side
(the result being determined by `attemptFactRecovery` on that window);
outside that band the rejection is returned unchanged for every possible
service reply. -/
theorem c5_expand_then_recover (lines : List String) (fact : Fact) (i s e : ℕ)
    (hp : parseLineRange fact.source_location = some (s, e))
    (hq : quotesToValidate fact ≠ [])
    (hfail : origFailed lines (quotesToValidate fact) s e ≠ []) :
    ((expandedHits lines (quotesToValidate fact) s e).all (·.1) = true →
      ∀ reply?, (validateFact reply? lines fact i none).is_valid = true ∧
        (validateFact reply? lines fact i none).was_recovered = false ∧
        (validateFact reply? lines fact i none).actual_line_range =
          renderRange (max 1 (s - 5)) (min lines.length (e + 5))
            ++ " (expanded search)") ∧
    ((expandedHits lines (quotesToValidate fact) s e).all (·.1) = false →
      (¬(2/5 ≤ (bestOf ((expandedHits lines (quotesToValidate fact) s e).map (·.2))
            (quotesToValidate fact)).1 ∧
          (bestOf ((expandedHits lines (quotesToValidate fact) s e).map (·.2))
            (quotesToValidate fact)).1 < 7/10) →
        ∀ reply?, validateFact reply? lines fact i none =
          docRejResult fact.claim i s e (quotesToValidate fact)
            (origFailed lines (quotesToValidate fact) s e).length
            ((expandedHits lines (quotesToValidate fact) s e).map (·.2))) ∧
      ((2/5 ≤ (bestOf ((expandedHits lines (quotesToValidate fact) s e).map (·.2))
            (quotesToValidate fact)).1 ∧
          (bestOf ((expandedHits lines (quotesToValidate fact) s e).map (·.2))
            (quotesToValidate fact)).1 < 7/10) →
        ∀ reply?, validateFact reply? lines fact i none =
          (match attemptFactRecovery reply? fact.claim
              (bestOf ((expandedHits lines (quotesToValidate fact) s e).map (·.2))
                (quotesToValidate fact)).2
              (getLineText lines ((max 1 (s - 20) : ℕ) : ℤ)
                ((min lines.length (e + 20) : ℕ) : ℤ))
              (max 1 (s - 20)) (min lines.length (e + 20)) with
            | some (cq, cl) => recoveredResult fact.claim i cq cl
            | none => docRejResult fact.claim i s e (quotesToValidate fact)
                (origFailed lines (quotesToValidate fact) s e).length
                ((expandedHits lines (quotesToValidate fact) s e).map (·.2))))) := by
  have hbase : ∀ reply?, validateFact reply? lines fact i none =
      validateDocExpanded reply? lines fact.claim (quotesToValidate fact) i s e
        (origFailed lines (quotesToValidate fact) s e).length := by
    intro reply?
    rw [validateFact_docParsed hq hp, validateDocParsed_someFailed hfail]
  refine ⟨?_, ?_⟩
  · intro hall reply?
    rw [hbase reply?, validateDocExpanded_allFound hall]
    exact ⟨rfl, rfl, by simp [validResult, expandedWindow]⟩
  · intro hnall
    refine ⟨?_, ?_⟩
    · intro hband reply?
      rw [hbase reply?, validateDocExpanded_reject hnall hband]
    · intro hband reply?
      rw [hbase reply?, validateDocExpanded_recovery hnall hband]
      simp only [recoveryWindow]

/-- Witness for C5: a single 50%-matching quote fails the exact and the
expanded pass, lands in the medium-confidence band, and with no
completion service the fact ends in the document-mode rejection. -/
theorem c5_expand_then_recover_witness :
    (parseLineRange greekFact1.source_location = some (1, 1) ∧
      quotesToValidate greekFact1 ≠ [] ∧
      origFailed greekLines (quotesToValidate greekFact1) 1 1 ≠ [] ∧
      (expandedHits greekLines (quotesToValidate greekFact1) 1 1).all (·.1) = false ∧
      (2/5 ≤ (bestOf ((expandedHits greekLines (quotesToValidate greekFact1) 1 1).map
          (·.2)) (quotesToValidate greekFact1)).1 ∧
        (bestOf ((expandedHits greekLines (quotesToValidate greekFact1) 1 1).map
          (·.2)) (quotesToValidate greekFact1)).1 < 7/10)) ∧
    validateFact none greekLines greekFact1 0 none =
      docRejResult greekFact1.claim 0 1 1 (quotesToValidate greekFact1)
        (origFailed greekLines (quotesToValidate greekFact1) 1 1).length
        ((expandedHits greekLines (quotesToValidate greekFact1) 1 1).map (·.2)) := by
  have h1 : parseLineRange greekFact1.source_location = some (1, 1) := by decide
  have h2 : quotesToValidate greekFact1 ≠ [] := by decide
  have h3 : origFailed greekLines (quotesToValidate greekFact1) 1 1 ≠ [] := by
    simp only [origFailed, findQuoteInText_eval]
    decide
  have h4 : (expandedHits greekLines (quotesToValidate greekFact1) 1 1).all (·.1)
      = false := by
    simp only [expandedHits, findQuoteInText_eval]
    decide
  have h5 : 2/5 ≤ (bestOf ((expandedHits greekLines
        (quotesToValidate greekFact1) 1 1).map (·.2)) (quotesToValidate greekFact1)).1 ∧
      (bestOf ((expandedHits greekLines (quotesToValidate greekFact1) 1 1).map
        (·.2)) (quotesToValidate greekFact1)).1 < 7/10 := by
    rw [bestOf_eq, band_iff]
    simp only [expandedHits, findQuoteInText_eval]
    decide
  exact ⟨⟨h1, h2, h3, h4, h5⟩,
    ((c5_expand_then_recover greekLines greekFact1 0 1 1 h1 h2 h3).2 h4).2 h5 none⟩

/-- **C6 counterexample**: location parsing is case-sensitive, not
case-insensitive as claimed: the lowercase single-line form `line 7`
fails to parse (while `Line 7` parses), and a fact citing `line 7` is
rejected with the invalid-location message even though its quote is
exactly the text of line 7. -/
theorem c6_case_insensitive_counterexample :
    parseLineRange "Line 7" = some (7, 7) ∧
    parseLineRange "line 7" = none ∧
    isSubstrB (normalizeText "seven")
      (normalizeText (getLineText sevenLines (7 : ℤ) (7 : ℤ))) = true ∧
    (validateFact none sevenLines lcLocFact 0 none).is_valid = false ∧
    (validateFact none sevenLines lcLocFact 0 none).error_message =
      "Invalid location format: line 7" := by
  refine ⟨by decide, by decide, by decide, ?_, ?_⟩ <;>
    rw [validateFact_badLoc (by decide) (by decide)] <;> rfl

/-- **C6 amended**: source-location strings are parsed case-sensitively
on the exact tokens `Lines`/`Line`: `Lines <start>-<end>` and `Line <n>`
with that capitalization are accepted (the single-line form giving
start = end = n), lowercase or uppercase variants are rejected; an
unparseable location string causes the fact to be rejected with the
invalid-location error message, with no recovery (the result does not
depend on the completion service in any way), and a parse failure never
aborts validation of sibling facts: every fact in a batch is mapped to
its own result independently. -/
theorem c6_location_parsing_case_sensitive :
    (parseLineRange "Lines 10-20" = some (10, 20) ∧
      parseLineRange "Line 7" = some (7, 7) ∧
      parseLineRange "line 7" = none ∧
      parseLineRange "LINES 10-20" = none) ∧
    (∀ (reply? : Option RecoveryReply) (lines : List String) (fact : Fact) (i : ℕ),
      quotesToValidate fact ≠ [] →
      parseLineRange fact.source_location = none →
      validateFact reply? lines fact i none =
        invalidLocResult fact.claim fact.source_location i ∧
      (validateFact reply? lines fact i none).is_valid = false ∧
      (validateFact reply? lines fact i none).error_message =
        "Invalid location format: " ++ fact.source_location) ∧
    (∀ (oracle : ℕ → Option RecoveryReply) (lines : List String)
        (facts : List Fact) (j : ℕ),
      (validateFacts oracle lines facts).get? j =
        (facts.get? j).map (fun f => validateFact (oracle j) lines f j none)) := by
  refine ⟨⟨by decide, by decide, by decide, by decide⟩, ?_, ?_⟩
  · intro reply? lines fact i hq hp
    refine ⟨validateFact_badLoc hq hp, ?_, ?_⟩ <;> rw [validateFact_badLoc hq hp] <;> rfl
  · intro oracle lines facts j
    simpa using validateFactsGo_get? oracle lines facts 0 j

/-- Witness for C6: a concrete fact with the unparseable location
`line 7` is rejected with the invalid-location message. -/
theorem c6_location_parsing_case_sensitive_witness :
    (quotesToValidate lcLocFact ≠ [] ∧
      parseLineRange lcLocFact.source_location = none) ∧
    validateFact none sevenLines lcLocFact 3 none =
      invalidLocResult lcLocFact.claim lcLocFact.source_location 3 :=
  ⟨⟨by decide, by decide⟩,
    (c6_location_parsing_case_sensitive.2.1 none sevenLines lcLocFact 3
      (by decide) (by decide)).1⟩

/-- **C7 counterexample**: the rejection message quotes the expanded
match type of the FIRST quote, not the best percentage observed: with two
failing quotes scoring 0% and 50%, the best observed ratio is 0.5 but the
message reports `(best match: not found (only 0% match))`. -/
theorem c7_first_label_counterexample :
    (validateFact none greekLines greekFact 0 none).error_message =
      "2/2 quotes not found in specified lines or nearby (best match: not found (only 0% match))" ∧
    ((expandedHits greekLines (quotesToValidate greekFact) 1 1).map (·.2)) =
      ["not found (only 0% match)", "not found (only 50% match)"] ∧
    (bestOf ((expandedHits greekLines (quotesToValidate greekFact) 1 1).map (·.2))
      (quotesToValidate greekFact)).1 = 1/2 := by
  have hlabels : ((expandedHits greekLines (quotesToValidate greekFact) 1 1).map (·.2)) =
      ["not found (only 0% match)", "not found (only 50% match)"] := by
    simp only [expandedHits, findQuoteInText_eval]
    decide
  have hcount : (origFailed greekLines (quotesToValidate greekFact) 1 1).length = 2 := by
    simp only [origFailed, findQuoteInText_eval]
    decide
  have h3 : origFailed greekLines (quotesToValidate greekFact) 1 1 ≠ [] := by
    simp only [origFailed, findQuoteInText_eval]
    decide
  have h4 : (expandedHits greekLines (quotesToValidate greekFact) 1 1).all (·.1)
      = false := by
    simp only [expandedHits, findQuoteInText_eval]
    decide
  have hbest : (bestPct ((expandedHits greekLines (quotesToValidate greekFact) 1 1).map
      (·.2)) (quotesToValidate greekFact)).1 = 50 := by
    rw [hlabels]
    decide
  have h5 : 2/5 ≤ (bestOf ((expandedHits greekLines
        (quotesToValidate greekFact) 1 1).map (·.2)) (quotesToValidate greekFact)).1 ∧
      (bestOf ((expandedHits greekLines (quotesToValidate greekFact) 1 1).map
        (·.2)) (quotesToValidate greekFact)).1 < 7/10 := by
    rw [bestOf_eq, band_iff, hbest]
    decide
  have hp : parseLineRange greekFact.source_location = some (1, 1) := by decide
  have hqne : quotesToValidate greekFact ≠ [] := by decide
  refine ⟨?_, hlabels, ?_⟩
  · rw [validateFact_docParsed hqne hp,
      validateDocParsed_someFailed h3, validateDocExpanded_recovery h4 h5]
    show (docRejResult greekFact.claim 0 1 1 (quotesToValidate greekFact)
        (origFailed greekLines (quotesToValidate greekFact) 1 1).length
        ((expandedHits greekLines (quotesToValidate greekFact) 1 1).map (·.2))).error_message
      = _
    simp only [docRejResult, hcount, hlabels]
    decide
  · rw [bestOf_eq, hbest]
    norm_num

/-- **C7 amended**: the document-mode rejection message reports the count
of quotes that failed the initial exact-range pass out of N, and appends,
labelled `best match`, the expanded-pass match type of the FIRST quote
(which need not be the best percentage observed across all quotes). -/
theorem c7_rejection_message (reply? : Option RecoveryReply) (lines : List String)
    (fact : Fact) (i s e : ℕ)
    (hp : parseLineRange fact.source_location = some (s, e))
    (hq : quotesToValidate fact ≠ [])
    (hfail : origFailed lines (quotesToValidate fact) s e ≠ [])
    (hnall : (expandedHits lines (quotesToValidate fact) s e).all (·.1) = false)
    (hnb : ¬(2/5 ≤ (bestOf ((expandedHits lines (quotesToValidate fact) s e).map (·.2))
          (quotesToValidate fact)).1 ∧
        (bestOf ((expandedHits lines (quotesToValidate fact) s e).map (·.2))
          (quotesToValidate fact)).1 < 7/10) ∨
      attemptFactRecovery reply? fact.claim
        (bestOf ((expandedHits lines (quotesToValidate fact) s e).map (·.2))
          (quotesToValidate fact)).2
        (getLineText lines ((max 1 (s - 20) : ℕ) : ℤ) ((min lines.length (e + 20) : ℕ) : ℤ))
        (max 1 (s - 20)) (min lines.length (e + 20)) = none) :
    (validateFact reply? lines fact i none).error_message =
      natToStr (origFailed lines (quotesToValidate fact) s e).length ++ "/"
        ++ natToStr (quotesToValidate fact).length
        ++ " quotes not found in specified lines or nearby"
        ++ (" (best match: "
          ++ ((expandedHits lines (quotesToValidate fact) s e).map (·.2)).headD "" ++ ")") := by
  have hlabels_ne : ((expandedHits lines (quotesToValidate fact) s e).map (·.2)).isEmpty
      = false := by
    cases hquotes : quotesToValidate fact with
    | nil => exact absurd hquotes hq
    | cons a l => simp [expandedHits, hquotes]
  have hbase : validateFact reply? lines fact i none =
      validateDocExpanded reply? lines fact.claim (quotesToValidate fact) i s e
        (origFailed lines (quotesToValidate fact) s e).length := by
    rw [validateFact_docParsed hq hp, validateDocParsed_someFailed hfail]
  by_cases hband : 2/5 ≤ (bestOf ((expandedHits lines (quotesToValidate fact) s e).map
        (·.2)) (quotesToValidate fact)).1 ∧
      (bestOf ((expandedHits lines (quotesToValidate fact) s e).map (·.2))
        (quotesToValidate fact)).1 < 7/10
  · rcases hnb with hnb | hnone
    · exact absurd hband hnb
    · rw [hbase, validateDocExpanded_recovery hnall hband]
      simp only [recoveryWindow]
      rw [hnone]
      simp [docRejResult, hlabels_ne]
  · rw [hbase, validateDocExpanded_reject hnall hband]
    simp [docRejResult, hlabels_ne]

/-- Witness for C7: the two-quote scenario of the counterexample, with no
completion service, through the amended message shape. -/
theorem c7_rejection_message_witness :
    (parseLineRange greekFact.source_location = some (1, 1) ∧
      quotesToValidate greekFact ≠ [] ∧
      origFailed greekLines (quotesToValidate greekFact) 1 1 ≠ [] ∧
      (expandedHits greekLines (quotesToValidate greekFact) 1 1).all (·.1) = false) ∧
    (validateFact none greekLines greekFact 0 none).error_message =
      natToStr (origFailed greekLines (quotesToValidate greekFact) 1 1).length ++ "/"
        ++ natToStr (quotesToValidate greekFact).length
        ++ " quotes not found in specified lines or nearby"
        ++ (" (best match: "
          ++ ((expandedHits greekLines (quotesToValidate greekFact) 1 1).map
            (·.2)).headD "" ++ ")") := by
  have h3 : origFailed greekLines (quotesToValidate greekFact) 1 1 ≠ [] := by
    simp only [origFailed, findQuoteInText_eval]
    decide
  have h4 : (expandedHits greekLines (quotesToValidate greekFact) 1 1).all (·.1)
      = false := by
    simp only [expandedHits, findQuoteInText_eval]
    decide
  exact ⟨⟨by decide, by decide, h3, h4⟩,
    c7_rejection_message none greekLines greekFact 0 1 1 (by decide) (by decide) h3 h4
      (Or.inr rfl)⟩

/-- **C10**: a quote that normalizes to the empty string is always
reported as `exact match` (the empty string is a substring of every
window), so a fact whose evidence list is non-empty but consists only of
empty or whitespace-only quote strings is accepted as valid against any
chunk text, and against any document once its location parses — it is
not rejected for missing evidence. -/
theorem c10_empty_quotes_accepted :
    (∀ q t : String, normalizeText q = "" →
      findQuoteInText q t = (true, "exact match")) ∧
    (∀ (reply? : Option RecoveryReply) (lines : List String) (fact : Fact)
        (i : ℕ) (ct : String),
      quotesToValidate fact ≠ [] →
      (∀ q ∈ quotesToValidate fact, normalizeText q = "") →
      (validateFact reply? lines fact i (some ct)).is_valid = true) ∧
    (∀ (reply? : Option RecoveryReply) (lines : List String) (fact : Fact)
        (i s e : ℕ),
      quotesToValidate fact ≠ [] →
      (∀ q ∈ quotesToValidate fact, normalizeText q = "") →
      parseLineRange fact.source_location = some (s, e) →
      (validateFact reply? lines fact i none).is_valid = true) := by
  refine ⟨?_, ?_, ?_⟩
  · intro q t h
    exact findQuote_exact (isSubstrB_empty h _)
  · intro reply? lines fact i ct hq hemp
    have hfilter : (quotesToValidate fact).filter
        (fun q => !(findQuoteInText q ct).1) = [] := by
      rw [List.filter_eq_nil]
      intro q hqm
      simp [findQuote_exact (isSubstrB_empty (hemp q hqm) _)]
    rw [validateFact_chunk hq, validateChunk_allFound hfilter]
    rfl
  · intro reply? lines fact i s e hq hemp hp
    have hfilter : origFailed lines (quotesToValidate fact) s e = [] := by
      unfold origFailed
      rw [List.filter_eq_nil]
      intro q hqm
      simp [findQuote_exact (isSubstrB_empty (hemp q hqm) _)]
    rw [validateFact_docParsed hq hp, validateDocParsed_allFound hfilter]
    rfl

/-- Witness for C10: a fact whose two quotes are `""` and `" "` is
accepted both against an unrelated chunk and against an unrelated
document. -/
theorem c10_empty_quotes_accepted_witness :
    (quotesToValidate emptyQuoteFact ≠ [] ∧
      (∀ q ∈ quotesToValidate emptyQuoteFact, normalizeText q = "") ∧
      parseLineRange emptyQuoteFact.source_location = some (1, 1)) ∧
    (validateFact none sevenLines emptyQuoteFact 0
        (some "completely unrelated chunk")).is_valid = true ∧
    (validateFact none sevenLines emptyQuoteFact 0 none).is_valid = true :=
  ⟨⟨by decide, by decide, by decide⟩,
    c10_empty_quotes_accepted.2.1 none sevenLines emptyQuoteFact 0
      "completely unrelated chunk" (by decide) (by decide),
    c10_empty_quotes_accepted.2.2 none sevenLines emptyQuoteFact 0 1 1
      (by decide) (by decide) (by decide)⟩

/-- Witness for C4: a ten-word quote whose first seven words appear in
order in the window matches at exactly 70% and is accepted with the
`partial match (70%)` label. -/
theorem c4_partial_threshold_witness :
    isSubstrB (normalizeText "w1 w2 w3 w4 w5 w6 w7 w8 w9 w10")
      (normalizeText "w1 w2 w3 w4 w5 w6 w7 x y z") = false ∧
    matchRatio "w1 w2 w3 w4 w5 w6 w7 w8 w9 w10" "w1 w2 w3 w4 w5 w6 w7 x y z" = 7/10 ∧
    findQuoteInText "w1 w2 w3 w4 w5 w6 w7 w8 w9 w10" "w1 w2 w3 w4 w5 w6 w7 x y z" =
      (true, "partial match (70%)") := by
  have h : isSubstrB (normalizeText "w1 w2 w3 w4 w5 w6 w7 w8 w9 w10")
      (normalizeText "w1 w2 w3 w4 w5 w6 w7 x y z") = false := by decide
  have hlen : (pySplit (normalizeText "w1 w2 w3 w4 w5 w6 w7 w8 w9 w10")).length = 10 := by
    decide
  have hac : alignCount (pySplit (normalizeText "w1 w2 w3 w4 w5 w6 w7 w8 w9 w10"))
      (pySplit (normalizeText "w1 w2 w3 w4 w5 w6 w7 x y z")) = 7 := by decide
  have hr : matchRatio "w1 w2 w3 w4 w5 w6 w7 w8 w9 w10" "w1 w2 w3 w4 w5 w6 w7 x y z"
      = 7/10 := by
    unfold matchRatio
    simp only [hlen, hac]
    norm_num
  exact ⟨h, hr, (c4_partial_threshold _ _ h).2.1 hr⟩

end Frfr
